import Mathlib

/-!
# Verification of the transaction-reconciliation tracker

A shallow embedding of the `TxReconciliationTracker` (BIP-330-style transaction
reconciliation): peer registry and handshake, per-peer announcement sets, the
deterministic fanout selector, the round-robin reconciliation queue, and the
request builder.

The tracker implementation file itself is not part of the provided sources
(only its unit tests, a benchmark and a header are); every operation below is
therefore modelled from the specification text (spec.md sections 3 and 4),
keeping the names that the tests use (`RegisterPeer`, `ForgetPeer`,
`ShouldFanoutTo`, `IsPeerNextToReconcileWith`, `InitiateReconciliationRequest`,
`AddToSet`).

Conventions of the embedding:
* peer ids are integers (`NodeId := Int`, signed 64-bit in the source);
* transaction ids (`Wtxid`) are natural numbers (256-bit hashes in the source);
* wall-clock instants and durations are natural numbers of microseconds
  (`std::chrono` durations in the source);
* the keyed short-id hash used to rank peers in the fanout selector is an
  opaque function `Hasher : Wtxid → NodeId → Nat` (SipHash in the source);
  every theorem below is universally quantified over it;
* the per-peer map is an association list whose keys are kept distinct by the
  operations; theorems that need key distinctness take it as a hypothesis.
-/

/-- Peer identifier (signed 64-bit `NodeId` in the source). -/
abbrev NodeId := Int

/-- Transaction identifier (256-bit wtxid in the source), as a natural number. -/
abbrev Wtxid := Nat

/-- Modelled from the spec: the opaque keyed short-id hash object used by the
fanout selector to rank peers; `h w p` is the pseudo-random rank that the
transaction-specific keyed hash assigns to peer `p` for transaction `w`
(`rank_i = siphash(seed = hasher.keys, key = (wtxid, peer_i))`). -/
abbrev Hasher := Wtxid → NodeId → Nat

/-- Result values of the registration operation (spec section 4.1). -/
inductive ReconciliationRegisterResult where
  | SUCCESS
  | ALREADY_REGISTERED
  | NOT_FOUND
  | PROTOCOL_VIOLATION
deriving DecidableEq, Repr

/-- Modelled from the spec: the per-peer state stored for a peer in phase
Registered (spec section 3, `PeerState`).  The registration-time
`chosen_for_fanout` bit and the salt-derived hasher seed belong to collaborators
outside the claims under verification and are not carried here. -/
structure TxReconciliationState where
  is_inbound : Bool
  we_initiate : Bool
  version : Nat
  announcement_set : List Wtxid
  pending_request : Bool
deriving DecidableEq, Repr

/-- Modelled from the spec: the phase of a known peer; `Forgotten` is not
stored, it is absence from the map (spec section 3). A pre-registered peer
stores only its locally produced salt. -/
inductive PeerPhase where
  | preRegistered (local_salt : Nat)
  | registered (st : TxReconciliationState)
deriving DecidableEq, Repr

/-- Modelled from the spec: the global tracker state (spec section 3):
the per-peer map, the round-robin queue of registered initiator-role peers,
the next reconciliation instant, and the local maximum protocol version. -/
structure Tracker where
  protocol_version : Nat
  peers : List (NodeId × PeerPhase)
  queue : List NodeId
  next_recon_time : Nat
deriving DecidableEq, Repr

/-- Wire-relevant constant: local reconciliation protocol version. -/
def TXRECONCILIATION_VERSION : Nat := 1

/-- Wire-relevant constant: interval between reconciliations, in microseconds
(8 seconds). -/
def RECON_REQUEST_INTERVAL : Nat := 8000000

/-- Wire-relevant constant: how long to wait for a reconciliation response, in
microseconds (2 seconds). -/
def RECON_RESPONSE_TIMEOUT : Nat := 2000000

/-- Wire-relevant constant: scale of the fixed-point encoding of `q`. -/
def Q_PRECISION : Nat := 32767

/-- Default difference-density estimate `Q = 0.25`, as the fraction 1/4. -/
def DEFAULT_Q_NUM : Nat := 1

/-- Denominator of the default difference-density estimate `Q = 1/4`. -/
def DEFAULT_Q_DEN : Nat := 4

/-- Wire-relevant constant: number of outbound fanout destinations. -/
def OUTBOUND_FANOUT_DESTINATIONS : Nat := 1

/-- Association-list lookup of a peer's phase (first entry with the key). -/
def findPhase : List (NodeId × PeerPhase) → NodeId → Option PeerPhase
  | [], _ => none
  | q :: rest, p => if q.1 = p then some q.2 else findPhase rest p

/-- Phase of peer `p` in tracker `t`, or `none` when `p` is unknown/forgotten. -/
def lookupPeer (t : Tracker) (p : NodeId) : Option PeerPhase :=
  findPhase t.peers p

/-- A fresh tracker with the given local protocol version: no peers, empty
queue, next reconciliation time zero. -/
def mkTracker (v : Nat) : Tracker :=
  { protocol_version := v, peers := [], queue := [], next_recon_time := 0 }

/-- Replace the phase stored under key `p` by its image under `f`, leaving all
other entries (and the key itself) unchanged. -/
def updatePhase (ps : List (NodeId × PeerPhase)) (p : NodeId)
    (f : PeerPhase → PeerPhase) : List (NodeId × PeerPhase) :=
  ps.map (fun q => if q.1 = p then (q.1, f q.2) else q)

/-- Modelled from the spec: `is_peer_registered` — true iff phase = Registered
(spec section 4.1). -/
def IsPeerRegistered (t : Tracker) (p : NodeId) : Bool :=
  match lookupPeer t p with
  | some (.registered _) => true
  | _ => false

/-- Modelled from the spec: `pre_register_peer` — enters phase PreRegistered
with a zero salt (spec section 4.1); calling twice overwrites the stored salt;
a peer already in phase Registered is left unchanged. -/
def PreRegisterPeer (t : Tracker) (p : NodeId) : Tracker :=
  match lookupPeer t p with
  | none => { t with peers := t.peers ++ [(p, .preRegistered 0)] }
  | some (.preRegistered _) =>
      { t with peers := updatePhase t.peers p (fun _ => .preRegistered 0) }
  | some (.registered _) => t

/-- Modelled from the spec: `register_peer` (the `RegisterPeer` entry point of
the tests; spec sections 4.1 and 7). Requires a prior pre-registration
(`NOT_FOUND` otherwise), rejects a second registration (`ALREADY_REGISTERED`),
rejects remote version 0 (`PROTOCOL_VIOLATION`); on success negotiates
`version = min(local, remote)`, sets `we_initiate` iff the peer is outbound,
allocates an empty announcement set, and appends the peer to the round-robin
queue when we initiate. -/
def RegisterPeer (t : Tracker) (p : NodeId) (is_peer_inbound : Bool)
    (peer_recon_version : Nat) (_remote_salt : Nat) :
    ReconciliationRegisterResult × Tracker :=
  match lookupPeer t p with
  | none => (.NOT_FOUND, t)
  | some (.registered _) => (.ALREADY_REGISTERED, t)
  | some (.preRegistered _) =>
    if peer_recon_version = 0 then (.PROTOCOL_VIOLATION, t)
    else
      let st : TxReconciliationState :=
        { is_inbound := is_peer_inbound
          we_initiate := !is_peer_inbound
          version := min t.protocol_version peer_recon_version
          announcement_set := []
          pending_request := false }
      (.SUCCESS,
       { t with
          peers := updatePhase t.peers p (fun _ => .registered st)
          queue := if is_peer_inbound then t.queue else t.queue ++ [p] })

/-- Modelled from the spec: `forget_peer` — removes the peer entirely
(idempotent) and removes its queue membership (spec sections 4.1 and 4.4). -/
def ForgetPeer (t : Tracker) (p : NodeId) : Tracker :=
  { t with
      peers := t.peers.filter (fun q => decide (q.1 ≠ p))
      queue := t.queue.filter (fun q => decide (q ≠ p)) }

/-- Modelled from the spec: insertion of one transaction id into a registered
peer's announcement set (the `AddToSet` entry point of the tests; spec
section 4.2). Duplicate insertions are no-ops; unregistered peers are left
unchanged. -/
def AddToSet (t : Tracker) (p : NodeId) (w : Wtxid) : Tracker :=
  match lookupPeer t p with
  | some (.registered st) =>
      if w ∈ st.announcement_set then t
      else
        let ph := PeerPhase.registered { st with announcement_set := st.announcement_set ++ [w] }
        { t with peers := updatePhase t.peers p (fun _ => ph) }
  | _ => t

/-- Whether this entry is a registered peer of the given direction
(`dir = true` for inbound, `false` for outbound). -/
def isRegisteredInDir (ph : PeerPhase) (dir : Bool) : Bool :=
  match ph with
  | .registered st => st.is_inbound = dir
  | _ => false

/-- Ids of the currently-registered peers of one direction, in map order. -/
def dirIds (ps : List (NodeId × PeerPhase)) (dir : Bool) : List NodeId :=
  (ps.filter (fun q => isRegisteredInDir q.2 dir)).map Prod.fst

/-- Ids of the currently-registered peers of one direction of a tracker. -/
def registeredDirIds (t : Tracker) (dir : Bool) : List NodeId :=
  dirIds t.peers dir

/-- Comparison used to rank candidate peers in the fanout selector: by the
transaction-specific keyed-hash rank, ties broken by peer id. -/
def rankLE (h : Hasher) (w : Wtxid) (a b : NodeId) : Bool :=
  decide (h w a < h w b ∨ (h w a = h w b ∧ a ≤ b))

/-- Modelled from the spec: `should_fanout_to` (spec section 4.3). If the peer
is not registered, return true (fall back to full flooding). Otherwise rank all
currently-registered peers of the same direction under the transaction-specific
keyed hash and select the peer iff it is among the top `K` after accounting for
peers already flooding by other means, where `K = 1 −
outbounds_nonrcncl_tx_relay` for outbound peers and `K = ⌈N/10⌉ −
inbounds_nonrcncl_tx_relay` for inbound peers (`N` the number of registered
inbound peers); a non-positive `K` selects nobody (here: truncated natural
subtraction, so `K = 0`). -/
def ShouldFanoutTo (t : Tracker) (w : Wtxid) (h : Hasher) (p : NodeId)
    (inbounds_nonrcncl_tx_relay outbounds_nonrcncl_tx_relay : Nat) : Bool :=
  match lookupPeer t p with
  | some (.registered st) =>
      let candidates := registeredDirIds t st.is_inbound
      let targets :=
        if st.is_inbound then
          (candidates.length + 9) / 10 - inbounds_nonrcncl_tx_relay
        else
          OUTBOUND_FANOUT_DESTINATIONS - outbounds_nonrcncl_tx_relay
      let ranked := candidates.mergeSort (rankLE h w)
      decide (p ∈ ranked.take targets)
  | _ => true

/-- Set the `pending_request` flag of a registered phase to `b`; other phases
are unchanged. -/
def setPendingPhase (b : Bool) : PeerPhase → PeerPhase
  | .registered st => .registered { st with pending_request := b }
  | ph => ph

/-- Clear the `pending_request` flag of peer `p` in the per-peer map. -/
def clearPendingList (ps : List (NodeId × PeerPhase)) (p : NodeId) :
    List (NodeId × PeerPhase) :=
  updatePhase ps p (setPendingPhase false)

/-- Set the `pending_request` flag of peer `p` in the per-peer map. -/
def setPendingList (ps : List (NodeId × PeerPhase)) (p : NodeId) :
    List (NodeId × PeerPhase) :=
  updatePhase ps p (setPendingPhase true)

/-- True iff `p` is a registered peer from which we request sketches
(initiator role, `we_initiate = true`). -/
def IsRegisteredInitiator (t : Tracker) (p : NodeId) : Bool :=
  match lookupPeer t p with
  | some (.registered st) => st.we_initiate
  | _ => false

/-- The `pending_request` flag of peer `p` (false when not registered). -/
def pendingOf (t : Tracker) (p : NodeId) : Bool :=
  match lookupPeer t p with
  | some (.registered st) => st.pending_request
  | _ => false

/-- Modelled from the spec: `is_peer_next_to_reconcile_with` (spec section
4.4). False when `p` is not a registered initiator-role peer, when `now` is
before `next_recon_time`, when `p` is not the queue head, or when the head
still has a reconciliation pending and the response timeout has not elapsed.
Otherwise true, and as a side effect the head is rotated to the tail, its
`pending_request` flag is cleared, and `next_recon_time` becomes
`now + RECON_REQUEST_INTERVAL / queue_size`. -/
def IsPeerNextToReconcileWith (t : Tracker) (p : NodeId) (now : Nat) :
    Bool × Tracker :=
  match lookupPeer t p with
  | some (.registered st) =>
    if st.we_initiate = false then (false, t)
    else if now < t.next_recon_time then (false, t)
    else
      match t.queue with
      | [] => (false, t)
      | head :: rest =>
        if p = head then
          if st.pending_request = true ∧
              now < t.next_recon_time + RECON_RESPONSE_TIMEOUT then (false, t)
          else
            (true,
             { t with
                peers := clearPendingList t.peers p
                queue := rest ++ [head]
                next_recon_time :=
                  now + RECON_REQUEST_INTERVAL / (head :: rest).length })
        else (false, t)
  | _ => (false, t)

/-- Modelled from the spec: `initiate_reconciliation_request` (spec section
4.4). `none` when the peer is not a registered initiator or already has a
pending request; otherwise sets `pending_request` and returns the local
announcement-set size together with `q_formatted`, the default density
estimate `Q = 1/4` in fixed point: `⌊32767/4⌋ = 8191`. -/
def InitiateReconciliationRequest (t : Tracker) (p : NodeId) :
    Option (Nat × Nat) × Tracker :=
  match lookupPeer t p with
  | some (.registered st) =>
    if st.we_initiate = true ∧ st.pending_request = false then
      (some (st.announcement_set.length, Q_PRECISION * DEFAULT_Q_NUM / DEFAULT_Q_DEN),
       { t with peers := setPendingList t.peers p })
    else (none, t)
  | _ => (none, t)

/-! ## Helper lemmas about the per-peer map -/

/-- Looking up the updated key yields the image of the stored phase. -/
theorem findPhase_updatePhase (ps : List (NodeId × PeerPhase)) (p : NodeId)
    (f : PeerPhase → PeerPhase) :
    findPhase (updatePhase ps p f) p = (findPhase ps p).map f := by
  induction ps with
  | nil => rfl
  | cons q rest ih =>
    by_cases hq : q.1 = p
    · simp [updatePhase, findPhase, hq]
    · simp only [updatePhase, List.map_cons] at ih ⊢
      simp only [findPhase, if_neg hq]
      exact ih

/-- The update of one entry, written out on a cons cell. -/
theorem updatePhase_cons (q : NodeId × PeerPhase) (rest : List (NodeId × PeerPhase))
    (p : NodeId) (f : PeerPhase → PeerPhase) :
    updatePhase (q :: rest) p f
      = (if q.1 = p then (q.1, f q.2) else q) :: updatePhase rest p f := rfl

/-- Looking up a key other than the updated one is unchanged. -/
theorem findPhase_updatePhase_ne (ps : List (NodeId × PeerPhase)) (p r : NodeId)
    (f : PeerPhase → PeerPhase) (hne : r ≠ p) :
    findPhase (updatePhase ps p f) r = findPhase ps r := by
  induction ps with
  | nil => rfl
  | cons q rest ih =>
    rw [updatePhase_cons]
    by_cases hq : q.1 = p
    · have hqr : q.1 ≠ r := fun hc => hne (hc.symm.trans hq)
      rw [if_pos hq]
      simp only [findPhase, if_neg hqr]
      exact ih
    · by_cases hqr : q.1 = r
      · simp only [if_neg hq, findPhase, if_pos hqr]
      · simp only [if_neg hq, findPhase, if_neg hqr]
        exact ih

/-- After removing key `p`, looking up `p` yields nothing. -/
theorem findPhase_filter_ne_self (ps : List (NodeId × PeerPhase)) (p : NodeId) :
    findPhase (ps.filter (fun q => decide (q.1 ≠ p))) p = none := by
  induction ps with
  | nil => rfl
  | cons q rest ih =>
    by_cases hq : q.1 = p <;> simp [findPhase, hq] <;> simpa using ih

/-- Removing key `p` does not change the lookup of any other key. -/
theorem findPhase_filter_ne_other (ps : List (NodeId × PeerPhase)) (p r : NodeId)
    (hne : r ≠ p) :
    findPhase (ps.filter (fun q => decide (q.1 ≠ p))) r = findPhase ps r := by
  induction ps with
  | nil => rfl
  | cons q rest ih =>
    by_cases hq : q.1 = p
    · have hqr : q.1 ≠ r := fun hc => hne (hc.symm.trans hq)
      rw [List.filter_cons_of_neg (by simp [hq])]
      simp only [findPhase, if_neg hqr]
      exact ih
    · rw [List.filter_cons_of_pos (by simp [hq])]
      by_cases hqr : q.1 = r
      · simp only [findPhase, if_pos hqr]
      · simp only [findPhase, if_neg hqr]
        exact ih

/-! ## Helper lemmas about the fanout selector -/

/-- Every id of one direction's candidate list is a key of the per-peer map. -/
theorem dirIds_subset_keys (ps : List (NodeId × PeerPhase)) (dir : Bool) :
    dirIds ps dir ⊆ ps.map Prod.fst :=
  (List.Sublist.map Prod.fst (List.filter_sublist ps)).subset

/-- With distinct keys, the candidate list of one direction has no duplicates. -/
theorem dirIds_nodup (ps : List (NodeId × PeerPhase))
    (hnd : (ps.map Prod.fst).Nodup) (dir : Bool) : (dirIds ps dir).Nodup :=
  List.Nodup.sublist (List.Sublist.map Prod.fst (List.filter_sublist ps)) hnd

/-- With distinct keys, an id on the candidate list of one direction looks up
to a registered state of that direction. -/
theorem findPhase_of_mem_dirIds (ps : List (NodeId × PeerPhase)) (dir : Bool)
    (p : NodeId) (hnd : (ps.map Prod.fst).Nodup) (hp : p ∈ dirIds ps dir) :
    ∃ st : TxReconciliationState,
      findPhase ps p = some (.registered st) ∧ st.is_inbound = dir := by
  induction ps with
  | nil => simp [dirIds] at hp
  | cons q rest ih =>
    have hnd2 : (rest.map Prod.fst).Nodup := (List.nodup_cons.mp hnd).2
    have hq1 : q.1 ∉ rest.map Prod.fst := (List.nodup_cons.mp hnd).1
    by_cases hreg : isRegisteredInDir q.2 dir = true
    · have hp2 : p = q.1 ∨ p ∈ dirIds rest dir := by
        have : p ∈ List.map Prod.fst
            (q :: List.filter (fun r => isRegisteredInDir r.2 dir) rest) := by
          simpa [dirIds, List.filter_cons, hreg] using hp
        simpa [dirIds] using this
      rcases hp2 with heq | hmem
      · subst heq
        cases hph : q.2 with
        | preRegistered s => rw [hph] at hreg; simp [isRegisteredInDir] at hreg
        | registered st =>
          refine ⟨st, ?_, ?_⟩
          · simp [findPhase, hph]
          · rw [hph] at hreg
            simpa [isRegisteredInDir] using hreg
      · have hne : q.1 ≠ p := fun hc =>
          hq1 (hc ▸ dirIds_subset_keys rest dir hmem)
        obtain ⟨st, hfind, hdir⟩ := ih hnd2 hmem
        exact ⟨st, by simp [findPhase, hne, hfind], hdir⟩
    · have hmem : p ∈ dirIds rest dir := by
        simpa [dirIds, List.filter_cons, hreg] using hp
      have hne : q.1 ≠ p := fun hc =>
        hq1 (hc ▸ dirIds_subset_keys rest dir hmem)
      obtain ⟨st, hfind, hdir⟩ := ih hnd2 hmem
      exact ⟨st, by simp [findPhase, hne, hfind], hdir⟩

/-- Counting members of the first `d` elements of any reordering of a
duplicate-free list over that list gives exactly `d`. -/
theorem countP_mem_take_of_nodup (l : List NodeId) (hnd : l.Nodup)
    (le : NodeId → NodeId → Bool) (d : Nat) (hd : d ≤ l.length) :
    l.countP (fun p => decide (p ∈ (l.mergeSort le).take d)) = d := by
  have hperm : (l.mergeSort le).Perm l := List.mergeSort_perm l le
  have hmnd : (l.mergeSort le).Nodup := hperm.nodup_iff.mpr hnd
  have hTnd : ((l.mergeSort le).take d).Nodup :=
    List.Nodup.sublist (List.take_sublist d (l.mergeSort le)) hmnd
  have hTsub : ∀ a ∈ (l.mergeSort le).take d, a ∈ l := fun a ha =>
    hperm.mem_iff.mp ((List.take_sublist d (l.mergeSort le)).subset ha)
  rw [List.countP_eq_length_filter]
  have hfnd : (l.filter (fun p => decide (p ∈ (l.mergeSort le).take d))).Nodup :=
    hnd.filter _
  have hfperm :
      (l.filter (fun p => decide (p ∈ (l.mergeSort le).take d))).Perm
        ((l.mergeSort le).take d) := by
    rw [List.perm_ext_iff_of_nodup hfnd hTnd]
    intro a
    simp only [List.mem_filter, decide_eq_true_eq]
    exact ⟨fun h => h.2, fun h => ⟨hTsub a h, h⟩⟩
  rw [hfperm.length_eq, List.length_take, hperm.length_eq]
  omega

/-! ## Concrete states used by witnesses -/

/-- A concrete stand-in for the opaque keyed hash, used only to instantiate
universally quantified theorems at a concrete input. -/
def specHasher : Hasher := fun w p => (w * 31 + p.natAbs * 17) % 101

/-- Two outbound peers 1 and 2, registered in this order (queue `[1, 2]`). -/
def twoPeerTracker : Tracker :=
  (RegisterPeer (PreRegisterPeer
    (RegisterPeer (PreRegisterPeer (mkTracker 1) 1) 1 false 1 1).snd 2) 2 false 1 1).snd

/-! ## Claims -/

/-- C2: for every peer id that is not registered for reconciliation (unknown,
only pre-registered, or forgotten after registration), `should_fanout_to`
returns true for every wtxid, every hasher, and non-reconciling counts of
zero. -/
theorem C2_fanout_unregistered_always_true (t : Tracker) (w : Wtxid)
    (h : Hasher) (p : NodeId) (hreg : IsPeerRegistered t p = false) :
    ShouldFanoutTo t w h p 0 0 = true := by
  cases hl : lookupPeer t p with
  | none => simp [ShouldFanoutTo, hl]
  | some ph =>
    cases ph with
    | preRegistered s => simp [ShouldFanoutTo, hl]
    | registered st => simp [IsPeerRegistered, hl] at hreg

/-- Witness for C2 at a concrete pre-registered-only peer. -/
theorem C2_fanout_unregistered_always_true_witness :
    IsPeerRegistered (PreRegisterPeer (mkTracker 1) 0) 0 = false ∧
    ShouldFanoutTo (PreRegisterPeer (mkTracker 1) 0) 5 specHasher 0 0 0 = true :=
  ⟨by decide,
   C2_fanout_unregistered_always_true (PreRegisterPeer (mkTracker 1) 0) 5
     specHasher 0 (by decide)⟩

/-- C6: for every peer id with no prior pre-registration (including one whose
pre-registration was removed by `forget_peer`), `register_peer` returns
NOT_FOUND and the peer remains unregistered. -/
theorem C6_register_without_prereg_not_found (t : Tracker) (p : NodeId)
    (inb : Bool) (ver salt : Nat) :
    (lookupPeer t p = none →
       RegisterPeer t p inb ver salt = (.NOT_FOUND, t) ∧
       IsPeerRegistered t p = false) ∧
    lookupPeer (ForgetPeer t p) p = none := by
  constructor
  · intro hl
    exact ⟨by simp [RegisterPeer, hl], by simp [IsPeerRegistered, hl]⟩
  · exact findPhase_filter_ne_self t.peers p

/-- Witness for C6 at a concrete forgotten pre-registration. -/
theorem C6_register_without_prereg_not_found_witness :
    RegisterPeer (ForgetPeer (PreRegisterPeer (mkTracker 1) 0) 0) 0 true 1 1
      = (.NOT_FOUND, ForgetPeer (PreRegisterPeer (mkTracker 1) 0) 0) ∧
    IsPeerRegistered (ForgetPeer (PreRegisterPeer (mkTracker 1) 0) 0) 0 = false :=
  (C6_register_without_prereg_not_found
    (ForgetPeer (PreRegisterPeer (mkTracker 1) 0) 0) 0 true 1 1).1 (by decide)

/-- C7: calling `register_peer` on a peer that is already in phase Registered
returns ALREADY_REGISTERED and leaves the tracker state unchanged (the peer
keeps its stored state; the returned tracker is the input tracker itself). -/
theorem C7_register_twice_unchanged (t : Tracker) (p : NodeId)
    (st : TxReconciliationState) (inb : Bool) (ver salt : Nat)
    (hl : lookupPeer t p = some (.registered st)) :
    RegisterPeer t p inb ver salt = (.ALREADY_REGISTERED, t) ∧
    lookupPeer (RegisterPeer t p inb ver salt).snd p = some (.registered st) := by
  have h1 : RegisterPeer t p inb ver salt = (.ALREADY_REGISTERED, t) := by
    simp [RegisterPeer, hl]
  exact ⟨h1, by rw [h1]; exact hl⟩

/-- Witness for C7 at a concrete registered peer. -/
theorem C7_register_twice_unchanged_witness :
    RegisterPeer twoPeerTracker 1 false 1 0 = (.ALREADY_REGISTERED, twoPeerTracker) :=
  (C7_register_twice_unchanged twoPeerTracker 1
    ⟨false, true, 1, [], false⟩ false 1 0 (by decide)).1

/-- C8: on a pre-registered peer, `register_peer` fails with
PROTOCOL_VIOLATION exactly when the remote version is 0; any non-zero remote
version (including one strictly greater than the local maximum) yields SUCCESS
with the negotiated version equal to min(local, remote). -/
theorem C8_register_version_negotiation (t : Tracker) (p : NodeId) (ls : Nat)
    (inb : Bool) (ver salt : Nat)
    (hl : lookupPeer t p = some (.preRegistered ls)) :
    (ver = 0 → RegisterPeer t p inb ver salt = (.PROTOCOL_VIOLATION, t)) ∧
    (ver ≠ 0 →
       (RegisterPeer t p inb ver salt).fst = .SUCCESS ∧
       ∃ st : TxReconciliationState,
         lookupPeer (RegisterPeer t p inb ver salt).snd p
           = some (.registered st) ∧
         st.version = min t.protocol_version ver) := by
  constructor
  · intro h0; simp [RegisterPeer, hl, h0]
  · intro h0
    refine ⟨by simp [RegisterPeer, hl, h0], ?_⟩
    refine ⟨{ is_inbound := inb, we_initiate := !inb,
              version := min t.protocol_version ver,
              announcement_set := [], pending_request := false }, ?_, rfl⟩
    have hsnd : (RegisterPeer t p inb ver salt).snd.peers
        = updatePhase t.peers p (fun _ => PeerPhase.registered
            { is_inbound := inb, we_initiate := !inb,
              version := min t.protocol_version ver,
              announcement_set := [], pending_request := false }) := by
      simp [RegisterPeer, hl, h0]
    have hl2 : findPhase t.peers p = some (PeerPhase.preRegistered ls) := hl
    show findPhase (RegisterPeer t p inb ver salt).snd.peers p = _
    rw [hsnd, findPhase_updatePhase, hl2]
    rfl

/-- Witness for C8: local version 1, remote version 2 negotiates version 1. -/
theorem C8_register_version_negotiation_witness :
    RegisterPeer (PreRegisterPeer (mkTracker 1) 0) 0 true 0 1
      = (.PROTOCOL_VIOLATION, PreRegisterPeer (mkTracker 1) 0) ∧
    (RegisterPeer (PreRegisterPeer (mkTracker 1) 0) 0 true 2 1).fst = .SUCCESS ∧
    ∃ st : TxReconciliationState,
      lookupPeer (RegisterPeer (PreRegisterPeer (mkTracker 1) 0) 0 true 2 1).snd 0
        = some (.registered st) ∧
      st.version = min 1 2 := by
  have h := C8_register_version_negotiation (PreRegisterPeer (mkTracker 1) 0)
    0 0 true 2 1 (by decide)
  have h0 := C8_register_version_negotiation (PreRegisterPeer (mkTracker 1) 0)
    0 0 true 0 1 (by decide)
  exact ⟨h0.1 rfl, h.2 (by decide)⟩

/-- Filtering twice with the same predicate equals filtering once. -/
theorem filter_self_idem {α : Type} (f : α → Bool) (l : List α) :
    (l.filter f).filter f = l.filter f :=
  List.filter_eq_self.mpr (fun _ ha => (List.mem_filter.mp ha).2)

/-- C9: `forget_peer` removes the peer entirely and is idempotent: afterwards
the peer is not registered, the per-peer map omits it, it is no longer in the
reconciliation queue (so it is never the next peer to reconcile with), and
every other peer's stored state is untouched. -/
theorem C9_forget_peer_removes_entirely (t : Tracker) (p : NodeId) :
    IsPeerRegistered (ForgetPeer t p) p = false ∧
    lookupPeer (ForgetPeer t p) p = none ∧
    p ∉ (ForgetPeer t p).queue ∧
    ForgetPeer (ForgetPeer t p) p = ForgetPeer t p ∧
    (∀ r : NodeId, r ≠ p → lookupPeer (ForgetPeer t p) r = lookupPeer t r) ∧
    (∀ now : Nat, (IsPeerNextToReconcileWith (ForgetPeer t p) p now).fst = false) := by
  have hnone : lookupPeer (ForgetPeer t p) p = none :=
    findPhase_filter_ne_self t.peers p
  refine ⟨?_, hnone, ?_, ?_, ?_, ?_⟩
  · simp [IsPeerRegistered, hnone]
  · simp [ForgetPeer, List.mem_filter]
  · simp only [ForgetPeer]
    rw [filter_self_idem, filter_self_idem]
  · intro r hr
    exact findPhase_filter_ne_other t.peers p r hr
  · intro now
    simp [IsPeerNextToReconcileWith, hnone]

/-- Witness for C9 at a concrete two-peer state. -/
theorem C9_forget_peer_removes_entirely_witness :
    IsPeerRegistered (ForgetPeer twoPeerTracker 2) 2 = false ∧
    (2 : NodeId) ∉ (ForgetPeer twoPeerTracker 2).queue ∧
    lookupPeer (ForgetPeer twoPeerTracker 2) 1 = lookupPeer twoPeerTracker 1 ∧
    (IsPeerNextToReconcileWith (ForgetPeer twoPeerTracker 2) 2 0).fst = false := by
  have h := C9_forget_peer_removes_entirely twoPeerTracker 2
  exact ⟨h.1, h.2.2.1, h.2.2.2.2.1 1 (by decide), h.2.2.2.2.2 0⟩

/-- C10: a call to `is_peer_next_to_reconcile_with` that returns false has no
side effect: the returned state is the input state, so any query at the same
timestamp (in particular one for the actual queue head) gives the same answer
afterwards as before. -/
theorem C10_false_query_no_side_effect (t : Tracker) (p : NodeId) (now : Nat) :
    ((IsPeerNextToReconcileWith t p now).fst = false →
       (IsPeerNextToReconcileWith t p now).snd = t) ∧
    (∀ r : NodeId, (IsPeerNextToReconcileWith t p now).fst = false →
       IsPeerNextToReconcileWith (IsPeerNextToReconcileWith t p now).snd r now
         = IsPeerNextToReconcileWith t r now) := by
  have hmain : (IsPeerNextToReconcileWith t p now).fst = false →
      (IsPeerNextToReconcileWith t p now).snd = t := by
    intro hf
    cases hl : lookupPeer t p with
    | none => simp [IsPeerNextToReconcileWith, hl]
    | some ph =>
      cases ph with
      | preRegistered s => simp [IsPeerNextToReconcileWith, hl]
      | registered st =>
        by_cases hwi : st.we_initiate = false
        · simp [IsPeerNextToReconcileWith, hl, hwi]
        · by_cases ht : now < t.next_recon_time
          · simp [IsPeerNextToReconcileWith, hl, hwi, ht]
          · cases hq : t.queue with
            | nil => simp [IsPeerNextToReconcileWith, hl, hwi, ht, hq]
            | cons head rest =>
              by_cases hph : p = head
              · subst hph
                by_cases hpend : st.pending_request = true ∧
                    now < t.next_recon_time + RECON_RESPONSE_TIMEOUT
                · simp [IsPeerNextToReconcileWith, hl, hwi, ht, hq, hpend]
                · exfalso
                  have htrue : (IsPeerNextToReconcileWith t p now).fst = true := by
                    simp [IsPeerNextToReconcileWith, hl, hwi, ht, hq, hpend]
                  rw [htrue] at hf
                  exact Bool.noConfusion hf
              · simp [IsPeerNextToReconcileWith, hl, hwi, ht, hq, hph]
  refine ⟨hmain, ?_⟩
  intro r hf
  rw [hmain hf]

/-- Witness for C10: querying the non-head peer 2 leaves the state intact. -/
theorem C10_false_query_no_side_effect_witness :
    (IsPeerNextToReconcileWith twoPeerTracker 2 100000000).snd = twoPeerTracker ∧
    IsPeerNextToReconcileWith
        (IsPeerNextToReconcileWith twoPeerTracker 2 100000000).snd 1 100000000
      = IsPeerNextToReconcileWith twoPeerTracker 1 100000000 := by
  have h := C10_false_query_no_side_effect twoPeerTracker 2 100000000
  exact ⟨h.1 (by decide), h.2 1 (by decide)⟩

/-- C4: after `initiate_reconciliation_request` succeeds for a peer, the
pending flag is set with `next_recon_time` untouched, and as long as the flag
is set, `is_peer_next_to_reconcile_with` for that peer returns false at every
time before `next_recon_time + RECON_RESPONSE_TIMEOUT`; it can return true
again only once the flag is cleared or the timeout has elapsed. -/
theorem C4_pending_request_gates_scheduling (t t2 : Tracker) (p : NodeId)
    (r : Nat × Nat) (now : Nat) :
    (InitiateReconciliationRequest t p = (some r, t2) →
       pendingOf t2 p = true ∧ t2.next_recon_time = t.next_recon_time) ∧
    (pendingOf t2 p = true →
       now < t2.next_recon_time + RECON_RESPONSE_TIMEOUT →
       (IsPeerNextToReconcileWith t2 p now).fst = false) := by
  constructor
  · intro hinit
    cases hl : lookupPeer t p with
    | none => simp [InitiateReconciliationRequest, hl] at hinit
    | some ph =>
      cases ph with
      | preRegistered s => simp [InitiateReconciliationRequest, hl] at hinit
      | registered st =>
        by_cases hcond : st.we_initiate = true ∧ st.pending_request = false
        · rw [InitiateReconciliationRequest] at hinit
          rw [show lookupPeer t p = some (PeerPhase.registered st) from hl] at hinit
          simp only [if_pos hcond, Prod.mk.injEq] at hinit
          obtain ⟨hr, ht2⟩ := hinit
          constructor
          · have hfp : findPhase (setPendingList t.peers p) p
                = some (PeerPhase.registered { st with pending_request := true }) := by
              rw [setPendingList, findPhase_updatePhase]
              rw [show findPhase t.peers p = some (PeerPhase.registered st) from hl]
              rfl
            rw [← ht2]
            simp [pendingOf, lookupPeer, hfp]
          · rw [← ht2]
        · simp [InitiateReconciliationRequest, hl, hcond] at hinit
  · intro hpend htime
    cases hl2 : lookupPeer t2 p with
    | none => simp [pendingOf, hl2] at hpend
    | some ph =>
      cases ph with
      | preRegistered s => simp [pendingOf, hl2] at hpend
      | registered st2 =>
        have hp2 : st2.pending_request = true := by
          simpa [pendingOf, hl2] using hpend
        by_cases hwi : st2.we_initiate = false
        · simp [IsPeerNextToReconcileWith, hl2, hwi]
        · by_cases ht : now < t2.next_recon_time
          · simp [IsPeerNextToReconcileWith, hl2, hwi, ht]
          · cases hq : t2.queue with
            | nil => simp [IsPeerNextToReconcileWith, hl2, hwi, ht, hq]
            | cons head rest =>
              by_cases hph : p = head
              · subst hph
                simp [IsPeerNextToReconcileWith, hl2, hwi, ht, hq, hp2, htime]
              · simp [IsPeerNextToReconcileWith, hl2, hwi, ht, hq, hph]

/-- Witness for C4: initiating with the head of the two-peer queue gates it. -/
theorem C4_pending_request_gates_scheduling_witness :
    pendingOf (InitiateReconciliationRequest twoPeerTracker 1).snd 1 = true ∧
    (IsPeerNextToReconcileWith
        (InitiateReconciliationRequest twoPeerTracker 1).snd 1 0).fst = false := by
  have h := C4_pending_request_gates_scheduling twoPeerTracker
    (InitiateReconciliationRequest twoPeerTracker 1).snd 1 (0, 8191) 0
  have h1 := h.1 (by decide)
  exact ⟨h1.1, h.2 h1.1 (by decide)⟩

/-- Peer 0 registered outbound with an empty announcement set. -/
def freshOutboundTracker : Tracker :=
  (RegisterPeer (PreRegisterPeer (mkTracker 1) 0) 0 false 1 1).snd

/-- `freshOutboundTracker` after adding three distinct transaction ids to the
announcement set of peer 0. -/
def threeTxTracker : Tracker :=
  AddToSet (AddToSet (AddToSet freshOutboundTracker 0 11) 0 22) 0 33

/-- C5: `initiate_reconciliation_request` returns none for every peer that is
not a registered initiator; for a registered initiator without a pending
request it returns the current announcement-set size together with the
fixed-point default Q, `8191 = ⌊32767/4⌋`; in particular a freshly registered
outbound peer yields `(0, 8191)` and after three distinct transaction ids are
added it yields `(3, 8191)`. -/
theorem C5_initiate_request_parameters (t : Tracker) (p : NodeId) :
    (IsRegisteredInitiator t p = false →
       (InitiateReconciliationRequest t p).fst = none) ∧
    (∀ st : TxReconciliationState,
       lookupPeer t p = some (.registered st) → st.we_initiate = true →
       st.pending_request = false →
       (InitiateReconciliationRequest t p).fst
         = some (st.announcement_set.length, 8191)) ∧
    (InitiateReconciliationRequest freshOutboundTracker 0).fst = some (0, 8191) ∧
    (InitiateReconciliationRequest threeTxTracker 0).fst = some (3, 8191) := by
  refine ⟨?_, ?_, by decide, by decide⟩
  · intro hni
    cases hl : lookupPeer t p with
    | none => simp [InitiateReconciliationRequest, hl]
    | some ph =>
      cases ph with
      | preRegistered s => simp [InitiateReconciliationRequest, hl]
      | registered st =>
        have hwi : st.we_initiate = false := by
          simpa [IsRegisteredInitiator, hl] using hni
        simp [InitiateReconciliationRequest, hl, hwi]
  · intro st hl hwi hpend
    have hq : (InitiateReconciliationRequest t p).fst
        = some (st.announcement_set.length,
            Q_PRECISION * DEFAULT_Q_NUM / DEFAULT_Q_DEN) := by
      simp [InitiateReconciliationRequest, hl, hwi, hpend]
    rw [hq]
    norm_num [Q_PRECISION, DEFAULT_Q_NUM, DEFAULT_Q_DEN]

/-- Witness for C5 at a concrete pre-registered-only peer. -/
theorem C5_initiate_request_parameters_witness :
    (InitiateReconciliationRequest (PreRegisterPeer (mkTracker 1) 4) 4).fst = none :=
  (C5_initiate_request_parameters (PreRegisterPeer (mkTracker 1) 4) 4).1 (by decide)

/-- Reduction of the fanout selector at a registered peer: it is the
membership test in the top slice of the ranked same-direction candidates. -/
theorem ShouldFanoutTo_registered (t : Tracker) (w : Wtxid) (h : Hasher)
    (p : NodeId) (st : TxReconciliationState) (cin cout : Nat)
    (hst : lookupPeer t p = some (.registered st)) :
    ShouldFanoutTo t w h p cin cout =
      decide (p ∈ ((registeredDirIds t st.is_inbound).mergeSort (rankLE h w)).take
        (if st.is_inbound then
           ((registeredDirIds t st.is_inbound).length + 9) / 10 - cin
         else OUTBOUND_FANOUT_DESTINATIONS - cout)) := by
  simp [ShouldFanoutTo, hst]

/-- C1: for every fixed wtxid and hasher, the fanout selector picks an exact
count among the registered peers of one direction: with a single registered
outbound peer it returns true iff no outbound non-reconciling peer is already
flooding, and over `N` registered inbound peers the number of true answers is
exactly `⌈N/10⌉ − c` (truncated at zero), `c` the inbound non-reconciling
count. -/
theorem C1_fanout_exact_counts (t : Tracker)
    (hnd : (t.peers.map Prod.fst).Nodup) :
    (∀ (w : Wtxid) (h : Hasher) (p : NodeId),
       registeredDirIds t false = [p] →
       ShouldFanoutTo t w h p 0 0 = true ∧ ShouldFanoutTo t w h p 0 1 = false) ∧
    (∀ (w : Wtxid) (h : Hasher) (c : Nat),
       (registeredDirIds t true).countP (fun p => ShouldFanoutTo t w h p c 0)
         = ((registeredDirIds t true).length + 9) / 10 - c) := by
  constructor
  · intro w h p hone
    have hp : p ∈ registeredDirIds t false := by rw [hone]; simp
    obtain ⟨st, hst, hdir⟩ := findPhase_of_mem_dirIds t.peers false p hnd hp
    constructor
    · rw [ShouldFanoutTo_registered t w h p st 0 0 hst, hdir, hone]
      simp [List.mergeSort_singleton, OUTBOUND_FANOUT_DESTINATIONS]
    · rw [ShouldFanoutTo_registered t w h p st 0 1 hst, hdir, hone]
      simp [List.mergeSort_singleton, OUTBOUND_FANOUT_DESTINATIONS]
  · intro w h c
    have hndIn : (registeredDirIds t true).Nodup := dirIds_nodup t.peers hnd true
    have hle : ((registeredDirIds t true).length + 9) / 10 - c
        ≤ (registeredDirIds t true).length := by omega
    have hcong : ∀ p ∈ registeredDirIds t true,
        (ShouldFanoutTo t w h p c 0 = true) ↔
        (decide (p ∈ ((registeredDirIds t true).mergeSort (rankLE h w)).take
           (((registeredDirIds t true).length + 9) / 10 - c)) = true) := by
      intro p hp
      obtain ⟨st, hst, hdir⟩ := findPhase_of_mem_dirIds t.peers true p hnd hp
      rw [ShouldFanoutTo_registered t w h p st c 0 hst, hdir]
      simp
    rw [List.countP_congr hcong]
    exact countP_mem_take_of_nodup (registeredDirIds t true) hndIn (rankLE h w) _ hle

/-- One registered outbound peer (id 0) and twelve registered inbound peers
(ids 1..12), built through the registration handshake. -/
def fanoutTracker : Tracker :=
  (List.range 12).foldl
    (fun t i =>
      (RegisterPeer (PreRegisterPeer t (Int.ofNat i + 1)) (Int.ofNat i + 1) true 1 1).snd)
    (RegisterPeer (PreRegisterPeer (mkTracker 1) 0) 0 false 1 1).snd

/-- Witness for C1: the single outbound peer is always picked (and never when
one outbound non-reconciling relay exists), and 1 of the 12 inbound peers is
picked when one inbound non-reconciling relay exists (`⌈12/10⌉ − 1 = 1`). -/
theorem C1_fanout_exact_counts_witness :
    ShouldFanoutTo fanoutTracker 5 specHasher 0 0 0 = true ∧
    ShouldFanoutTo fanoutTracker 5 specHasher 0 0 1 = false ∧
    (registeredDirIds fanoutTracker true).countP
        (fun p => ShouldFanoutTo fanoutTracker 5 specHasher p 1 0)
      = ((registeredDirIds fanoutTracker true).length + 9) / 10 - 1 := by
  have h := C1_fanout_exact_counts fanoutTracker (by decide)
  obtain ⟨h1, h2⟩ := h.1 5 specHasher 0 (by decide)
  exact ⟨h1, h2, h.2 5 specHasher 1⟩

/-- `freshOutboundTracker` right after a reconciliation request was initiated
with its only (and head) peer 0: the head now has a pending request. -/
def pendingHeadTracker : Tracker :=
  (InitiateReconciliationRequest freshOutboundTracker 0).snd

/-- Counterexample to C3 as stated: peer 0 is a registered initiator, `now` is
not before `next_recon_time`, and peer 0 is the queue head, yet
`is_peer_next_to_reconcile_with` returns false — because the head still has a
pending reconciliation request within `RECON_RESPONSE_TIMEOUT`, a case the
claim does not list among its false-conditions. -/
theorem C3_counterexample_pending_head :
    IsRegisteredInitiator pendingHeadTracker 0 = true ∧
    pendingHeadTracker.next_recon_time ≤ 0 ∧
    pendingHeadTracker.queue.head? = some 0 ∧
    (IsPeerNextToReconcileWith pendingHeadTracker 0 0).fst = false := by decide

/-- The two-peer state after the head peer 1 was granted reconciliation at
t = 100 s. -/
def c3AfterFirst : Tracker :=
  (IsPeerNextToReconcileWith twoPeerTracker 1 100000000).snd

/-- The state after peer 2 was granted reconciliation at t = 104 s. -/
def c3AfterSecond : Tracker :=
  (IsPeerNextToReconcileWith c3AfterFirst 2 104000000).snd

/-- C3 (amended): `is_peer_next_to_reconcile_with` returns true iff the peer
is a registered initiator-role peer, `now` is not before `next_recon_time`,
the peer is the queue head, and the head does not still have a pending request
within `RECON_RESPONSE_TIMEOUT`; when true it rotates the head to the tail,
clears its pending flag, and sets `next_recon_time` to
`now + RECON_REQUEST_INTERVAL / queue_size`; in particular with two registered
outbound peers the eligible peer alternates with a 4-second (8 s / 2) gap. -/
theorem C3_amended_round_robin_characterization (t : Tracker) (p : NodeId)
    (now : Nat) :
    ((IsPeerNextToReconcileWith t p now).fst = true ↔
       (IsRegisteredInitiator t p = true ∧ t.next_recon_time ≤ now ∧
        t.queue.head? = some p ∧
        ¬(pendingOf t p = true ∧
          now < t.next_recon_time + RECON_RESPONSE_TIMEOUT))) ∧
    ((IsPeerNextToReconcileWith t p now).fst = true →
       (IsPeerNextToReconcileWith t p now).snd.queue = t.queue.tail ++ [p] ∧
       (IsPeerNextToReconcileWith t p now).snd.next_recon_time
         = now + RECON_REQUEST_INTERVAL / t.queue.length ∧
       pendingOf (IsPeerNextToReconcileWith t p now).snd p = false) ∧
    ((IsPeerNextToReconcileWith twoPeerTracker 1 100000000).fst = true ∧
     (IsPeerNextToReconcileWith c3AfterFirst 2 100000000).fst = false ∧
     (IsPeerNextToReconcileWith c3AfterFirst 2 104000000).fst = true ∧
     (IsPeerNextToReconcileWith c3AfterSecond 1 107000000).fst = false ∧
     (IsPeerNextToReconcileWith c3AfterSecond 1 108000000).fst = true) := by
  refine ⟨?_, ?_, by decide⟩
  · cases hl : lookupPeer t p with
    | none => simp [IsPeerNextToReconcileWith, IsRegisteredInitiator, hl]
    | some ph =>
      cases ph with
      | preRegistered s =>
        simp [IsPeerNextToReconcileWith, IsRegisteredInitiator, hl]
      | registered st =>
        by_cases hwi : st.we_initiate = false
        · simp [IsPeerNextToReconcileWith, IsRegisteredInitiator, hl, hwi]
        · have hwi2 : st.we_initiate = true := by
            revert hwi; cases st.we_initiate <;> simp
          by_cases ht : now < t.next_recon_time
          · have hnle : ¬ t.next_recon_time ≤ now := by omega
            simp [IsPeerNextToReconcileWith, IsRegisteredInitiator, hl, hwi,
              ht, hnle]
          · have hle2 : t.next_recon_time ≤ now := by omega
            cases hq : t.queue with
            | nil =>
              simp [IsPeerNextToReconcileWith, IsRegisteredInitiator, hl, hwi,
                ht, hq]
            | cons head rest =>
              by_cases hph : p = head
              · subst hph
                by_cases hpendc : st.pending_request = true ∧
                    now < t.next_recon_time + RECON_RESPONSE_TIMEOUT
                · simp [IsPeerNextToReconcileWith, IsRegisteredInitiator,
                    pendingOf, hl, hwi, ht, hq, hpendc, hle2]
                · simp [IsPeerNextToReconcileWith, IsRegisteredInitiator,
                    pendingOf, hl, hwi2, ht, hq, hpendc, hle2]
              · have hph2 : ¬ head = p := fun hc => hph hc.symm
                simp [IsPeerNextToReconcileWith, IsRegisteredInitiator, hl,
                  hwi, ht, hq, hph, hph2]
  · intro htrue
    cases hl : lookupPeer t p with
    | none => simp [IsPeerNextToReconcileWith, hl] at htrue
    | some ph =>
      cases ph with
      | preRegistered s => simp [IsPeerNextToReconcileWith, hl] at htrue
      | registered st =>
        by_cases hwi : st.we_initiate = false
        · simp [IsPeerNextToReconcileWith, hl, hwi] at htrue
        · by_cases ht : now < t.next_recon_time
          · simp [IsPeerNextToReconcileWith, hl, hwi, ht] at htrue
          · cases hq : t.queue with
            | nil => simp [IsPeerNextToReconcileWith, hl, hwi, ht, hq] at htrue
            | cons head rest =>
              by_cases hph : p = head
              · subst hph
                by_cases hpendc : st.pending_request = true ∧
                    now < t.next_recon_time + RECON_RESPONSE_TIMEOUT
                · simp [IsPeerNextToReconcileWith, hl, hwi, ht, hq, hpendc]
                    at htrue
                · have hsnd : (IsPeerNextToReconcileWith t p now).snd
                      = { t with
                            peers := clearPendingList t.peers p
                            queue := rest ++ [p]
                            next_recon_time :=
                              now + RECON_REQUEST_INTERVAL / (rest.length + 1) } := by
                    simp [IsPeerNextToReconcileWith, hl, hwi, ht, hq, hpendc]
                  have hfp : findPhase (clearPendingList t.peers p) p
                      = some (PeerPhase.registered
                          { st with pending_request := false }) := by
                    rw [clearPendingList, findPhase_updatePhase]
                    rw [show findPhase t.peers p
                        = some (PeerPhase.registered st) from hl]
                    rfl
                  refine ⟨?_, ?_, ?_⟩
                  · rw [hsnd]; rfl
                  · rw [hsnd]; rfl
                  · rw [hsnd]
                    simp [pendingOf, lookupPeer, hfp]
              · simp [IsPeerNextToReconcileWith, hl, hwi, ht, hq, hph] at htrue

/-- Witness for the amended C3: the first grant at t = 100 s rotates the
queue to `[2, 1]` and schedules the next reconciliation at t = 104 s. -/
theorem C3_amended_round_robin_characterization_witness :
    (IsPeerNextToReconcileWith twoPeerTracker 1 100000000).snd.queue = [2, 1] ∧
    (IsPeerNextToReconcileWith twoPeerTracker 1 100000000).snd.next_recon_time
      = 104000000 := by
  have h := (C3_amended_round_robin_characterization twoPeerTracker
    1 100000000).2.1 (by decide)
  refine ⟨?_, ?_⟩
  · rw [h.1]; decide
  · rw [h.2.1]; decide
